import Mathlib

/-!
Shallow embedding of the core pipeline of the stock-analysis repository:
data acquisition (`get_api_data`, `get_stock_data_with_cache`, `get_stock_data`,
`detect_price_anomalies` in `stock_analysis/data.py`), indicator computation
(`calculate_moving_averages`, `calculate_rsi` in `stock_analysis/indicators.py`)
and the signal decision engine (`analyze_buy_strategy` in
`stock_analysis/strategies.py`).

Numbers are modelled by rationals; a value that Python/pandas leaves undefined
(NaN from an incomplete rolling window, or an exception such as
`ZeroDivisionError`) is modelled by `Option`/`none`.
-/

namespace StockAnalysis

/-- Python's `round(x, 2)` (round half to even at two decimal places). -/
def roundHalfEven (q : ℚ) : ℤ :=
  let f : ℤ := ⌊q⌋
  let r : ℚ := q - f
  if r < 1/2 then f
  else if 1/2 < r then f + 1
  else if f % 2 = 0 then f else f + 1

/-- `round(x, 2)` from the source, as a rational. -/
def round2 (q : ℚ) : ℚ := (roundHalfEven (q * 100) : ℚ) / 100

/-! ## Signal decision engine (`stock_analysis/strategies.py`, `analyze_buy_strategy`) -/

/-- The fields of the `data` dict read by `analyze_buy_strategy`
(lines 19-24 of `strategies.py`). -/
structure StockData where
  current_price : ℚ
  high_52_week : ℚ
  low_52_week : ℚ
  ma50 : ℚ
  ma200 : ℚ
  rsi : ℚ
deriving DecidableEq, Repr

/-- The `strategy_params` dict (thresholds). -/
structure StrategyParams where
  rsi_threshold : ℚ
  price_position_threshold : ℚ
  ma_proximity_threshold : ℚ
deriving DecidableEq, Repr

/-- The defaults installed when `strategy_params is None` (lines 12-17). -/
def defaultParams : StrategyParams :=
  { rsi_threshold := 30
    price_position_threshold := 33
    ma_proximity_threshold := 5/100 }

/-- The reason strings appended to `buy_signals`, abstracted to one
constructor per rule, carrying the values interpolated into the f-string. -/
inductive Reason where
  | rsiOversold (threshold : ℚ)
  | pullbackUptrend
  | lowRangePosition (threshold position : ℚ)
  | goldenCrossProximity
deriving DecidableEq, Repr

/-- The three recommendation strings of lines 52-56. -/
inductive Recommendation where
  | buyCandidate
  | watch
  | avoid
deriving DecidableEq, Repr

/-- The five market-position strings of lines 59-68. -/
inductive MarketPosition where
  | nearLow
  | lower
  | mid
  | higher
  | nearHigh
deriving DecidableEq, Repr

/-- The result dict of `analyze_buy_strategy` (lines 70-76). -/
structure SignalResult where
  buy_signals : List Reason
  signals_count : ℕ
  recommendation : Recommendation
  market_position : MarketPosition
  price_position_percentage : ℚ
deriving DecidableEq, Repr

/-- Line 27: position of the current price in the 52-week range. -/
def price_position (data : StockData) : ℚ :=
  (data.current_price - data.low_52_week) /
    (data.high_52_week - data.low_52_week) * 100

/-- `analyze_buy_strategy` (lines 7-79 of `strategies.py`).  `none` models the
`ZeroDivisionError` raised when `high_52_week == low_52_week` (line 27), or
when rule 4 divides by `ma50 == 0` after its first conjunct holds (line 48). -/
def analyze_buy_strategy (data : StockData) (strategy_params : Option StrategyParams) :
    Option SignalResult :=
  let p := strategy_params.getD defaultParams
  if data.high_52_week = data.low_52_week then none
  else if data.ma200 < data.ma50 ∧ data.ma50 = 0 then none
  else
    let pp := price_position data
    let s1 : List Reason :=
      if data.rsi < p.rsi_threshold then [.rsiOversold p.rsi_threshold] else []
    let s2 : List Reason :=
      if data.current_price < data.ma50 ∧ data.ma200 < data.current_price then
        [.pullbackUptrend] else []
    let s3 : List Reason :=
      if pp < p.price_position_threshold then
        [.lowRangePosition p.price_position_threshold pp] else []
    let s4 : List Reason :=
      if data.ma200 < data.ma50 ∧
          |data.current_price - data.ma50| / data.ma50 < p.ma_proximity_threshold then
        [.goldenCrossProximity] else []
    let buy_signals := s1 ++ s2 ++ s3 ++ s4
    let recommendation : Recommendation :=
      if 2 ≤ buy_signals.length then .buyCandidate
      else if buy_signals.length = 1 then .watch
      else .avoid
    let market_position : MarketPosition :=
      if pp < 20 then .nearLow
      else if pp < 40 then .lower
      else if pp < 60 then .mid
      else if pp < 80 then .higher
      else .nearHigh
    some
      { buy_signals := buy_signals
        signals_count := buy_signals.length
        recommendation := recommendation
        market_position := market_position
        price_position_percentage := round2 pp }

/-- The recommendation as a function of the signal count alone, following the
spec's wording (signal count ≥ 2 → BUY_CANDIDATE, = 1 → WATCH, 0 → AVOID). -/
def recOfCount (n : ℕ) : Recommendation :=
  if 2 ≤ n then .buyCandidate else if n = 1 then .watch else .avoid

/-- The market-position band as a function of the price position alone,
following the spec's wording (strict cutoffs 20, 40, 60, 80). -/
def bandOf (pp : ℚ) : MarketPosition :=
  if pp < 20 then .nearLow
  else if pp < 40 then .lower
  else if pp < 60 then .mid
  else if pp < 80 then .higher
  else .nearHigh

/-! ## Indicator engine (`stock_analysis/indicators.py`) -/

/-- `Series.diff()`: first element NaN (`none`), then successive differences. -/
def diff (xs : List ℚ) : List (Option ℚ) :=
  (List.range xs.length).map fun i =>
    match i, xs.get? (i - 1), xs.get? i with
    | 0, _, _ => none
    | _ + 1, some a, some b => some (b - a)
    | _, _, _ => none

/-- `delta.where(delta > 0, 0)`: NaN compares false, so it becomes 0. -/
def gainOf (d : Option ℚ) : ℚ :=
  match d with
  | none => 0
  | some v => if 0 < v then v else 0

/-- `-delta.where(delta < 0, 0)`: NaN compares false, so it becomes 0. -/
def lossOf (d : Option ℚ) : ℚ :=
  match d with
  | none => 0
  | some v => if v < 0 then -v else 0

/-- The trailing window of length `w` ending at index `i`. -/
def windowSlice (w i : ℕ) (xs : List ℚ) : List ℚ :=
  (xs.take (i + 1)).drop (i + 1 - w)

/-- `Series.rolling(window=w).mean()`: NaN (`none`) until the window is full
(pandas' `min_periods` defaults to the window size). -/
def rollingMean (w : ℕ) (xs : List ℚ) : List (Option ℚ) :=
  (List.range xs.length).map fun i =>
    if w ≤ i + 1 then some ((windowSlice w i xs).sum / w) else none

/-- The `ma50`/`ma200` columns added by `calculate_moving_averages`
(lines 6-11 of `indicators.py`, default `windows=[50, 200]`). -/
structure MAResult where
  ma50 : List (Option ℚ)
  ma200 : List (Option ℚ)
deriving DecidableEq, Repr

/-- `calculate_moving_averages` on the `close` column. -/
def calculate_moving_averages (closes : List ℚ) : MAResult :=
  { ma50 := rollingMean 50 closes
    ma200 := rollingMean 200 closes }

/-- The 14-period average gain series of `calculate_rsi` (line 19). -/
def rsi_avg_gain (window : ℕ) (closes : List ℚ) : List (Option ℚ) :=
  rollingMean window ((diff closes).map gainOf)

/-- The 14-period average loss series of `calculate_rsi` (line 20). -/
def rsi_avg_loss (window : ℕ) (closes : List ℚ) : List (Option ℚ) :=
  rollingMean window ((diff closes).map lossOf)

/-- `calculate_rsi` (lines 13-24 of `indicators.py`): `rs = avg_gain/avg_loss`,
`rsi = 100 - 100/(1+rs)`, under IEEE semantics: with `avg_loss = 0` the ratio
is `inf` (rsi exactly 100) when `avg_gain > 0` and NaN (`none`) when
`avg_gain = 0`; NaN from an unfilled window propagates. -/
def calculate_rsi (window : ℕ) (closes : List ℚ) : List (Option ℚ) :=
  List.zipWith
    (fun g l =>
      match g, l with
      | some g, some l =>
          if l = 0 then (if g = 0 then none else some 100)
          else some (100 - 100 / (1 + g / l))
      | _, _ => none)
    (rsi_avg_gain window closes) (rsi_avg_loss window closes)

/-! ## Data module (`stock_analysis/data.py`) -/

/-- What one iteration of the retry loop in `get_api_data` observes:
a decoded payload (with or without the rate-limit `"Note"` marker), or an
exception from the request/decode. -/
inductive ApiOutcome where
  | payload (rate_limited : Bool) (data : ℕ)
  | exn
deriving DecidableEq, Repr

/-- How `get_api_data` terminates: a normal `return` (with `none` modelling
Python's implicit `return None` when the loop is exhausted), or a raise. -/
inductive FetchResult where
  | returns (data : Option ℕ)
  | raises
deriving DecidableEq, Repr

/-- The retry loop of `get_api_data` (lines 16-33 of `data.py`), by recursion
on the number of loop iterations still to run (`remaining = max_retries -
attempt`); `attempt` is the 0-based loop index.  In the exception branch, the
source's `attempt < max_retries - 1` ("not the final attempt") is `0 <
remaining` after the current iteration is peeled off.  Also returns the list
of `time.sleep` durations. -/
def get_api_data_loop (attempts : ℕ → ApiOutcome) (retry_delay : ℚ) :
    ℕ → ℕ → FetchResult × List ℚ
  | 0, _ => (.returns none, [])
  | remaining + 1, attempt =>
    match attempts attempt with
    | .payload true _ =>
        let rest := get_api_data_loop attempts retry_delay remaining (attempt + 1)
        (rest.1, retry_delay * (attempt + 1) :: rest.2)
    | .payload false d => (.returns (some d), [])
    | .exn =>
        if 0 < remaining then
          let rest := get_api_data_loop attempts retry_delay remaining (attempt + 1)
          (rest.1, retry_delay :: rest.2)
        else (.raises, [])

/-- `get_api_data(url, max_retries, retry_delay)` (lines 13-33 of `data.py`),
with the network abstracted as the outcome of each attempt. -/
def get_api_data (attempts : ℕ → ApiOutcome) (max_retries : ℕ) (retry_delay : ℚ) :
    FetchResult × List ℚ :=
  get_api_data_loop attempts retry_delay max_retries 0

/-- The result dict of `detect_price_anomalies` (lines 46-59 of `data.py`). -/
structure AnomalyResult where
  detected : Bool
  date : Option ℤ
  change_pct : Option ℚ
deriving DecidableEq, Repr

/-- `df['close'].pct_change() * 100` on a (date, close) series: the row 0
value is NaN and is dropped here (it can never pass the `abs > threshold`
filter, since NaN comparisons are false). -/
def pct_changes : List (ℤ × ℚ) → List (ℤ × ℚ)
  | [] => []
  | r :: rs => pct_changes_from r rs
where
  pct_changes_from (prev : ℤ × ℚ) : List (ℤ × ℚ) → List (ℤ × ℚ)
  | [] => []
  | r :: rs => (r.1, (r.2 - prev.2) / prev.2 * 100) :: pct_changes_from r rs

/-- `Series.abs().idxmax()` restricted to what line 54 of `data.py` uses:
the first element of the list whose second component has maximal absolute
value (pandas `idxmax` returns the first occurrence of the maximum). -/
def firstMaxAbs : List (ℤ × ℚ) → Option (ℤ × ℚ)
  | [] => none
  | p :: ps =>
    match firstMaxAbs ps with
    | none => some p
    | some q => if |p.2| < |q.2| then some q else some p

/-- `detect_price_anomalies(df, threshold=0.15)` (lines 35-61 of `data.py`)
on the (date, close) pairs of the frame. -/
def detect_price_anomalies (threshold : ℚ) (rows : List (ℤ × ℚ)) : AnomalyResult :=
  let sorted := rows.insertionSort (fun a b => a.1 ≤ b.1)
  let changes := pct_changes sorted
  let large := changes.filter (fun p => threshold * 100 < |p.2|)
  match firstMaxAbs large with
  | none => { detected := false, date := none, change_pct := none }
  | some m => { detected := true, date := some m.1, change_pct := some (round2 m.2) }

/-- One parsed row of the daily time-series frame built in `get_stock_data`
(dates as day numbers). -/
structure Row where
  date : ℤ
  open_ : ℚ
  high : ℚ
  low : ℚ
  close : ℚ
  volume : ℚ
deriving DecidableEq, Repr

/-- The dict returned by `get_stock_data` (lines 147-155 of `data.py`). -/
structure Snapshot where
  date : ℤ
  current_price : ℚ
  high_52_week : ℚ
  low_52_week : ℚ
  pe_ratio : ℚ
  price_anomaly : AnomalyResult
  df : List Row
deriving DecidableEq, Repr

/-- `get_stock_data(symbol, api_key)` (lines 91-155 of `data.py`) after the
two HTTP payloads are decoded: `rows` is the parsed daily time series and
`pe_field` the `"PERatio"` value of the overview payload (`none` when the key
is absent, making `data_overview.get("PERatio", 0)` return the default 0).
`none` models the `ValueError` raised when the time series is empty. -/
def get_stock_data (rows : List Row) (pe_field : Option ℚ) : Option Snapshot :=
  let df := rows.insertionSort (fun a b => a.date ≤ b.date)
  match df.getLast? with
  | none => none
  | some latest =>
    let current_price := latest.close
    let one_year_ago := latest.date - 365
    let df_52 := df.filter (fun r => one_year_ago ≤ r.date)
    let high_52_week := ((df_52.map Row.high).max?).getD 0
    let low_52_week := ((df_52.map Row.low).min?).getD 0
    let pe_ratio : ℚ := pe_field.getD 0
    let price_anomaly :=
      detect_price_anomalies (15/100) (df_52.map fun r => (r.date, r.close))
    some
      { date := latest.date
        current_price := round2 current_price
        high_52_week := round2 high_52_week
        low_52_week := round2 low_52_week
        pe_ratio := round2 pe_ratio
        price_anomaly := price_anomaly
        df := df }

/-- One call of `get_stock_data_with_cache` (lines 63-89 of `data.py`).
The cache directory is a map from symbol to (mtime, pickled blob);
`deserialize` models `pickle.load` (`none` = raise), `serialize` models
`pickle.dump`, `store_ok = false` models a failing cache write (caught and
logged), `fetched` is what `get_stock_data` would return on this call.
Result: (returned data, new cache state, number of upstream fetches). -/
def get_stock_data_with_cache (deserialize : ℕ → Option ℕ) (serialize : ℕ → ℕ)
    (fetched : ℕ) (store_ok : Bool) (now cache_expiry_hours : ℚ) (symbol : ℕ)
    (st : ℕ → Option (ℚ × ℕ)) :
    ℕ × (ℕ → Option (ℚ × ℕ)) × ℕ :=
  let fetchAndStore : ℕ × (ℕ → Option (ℚ × ℕ)) × ℕ :=
    let st' := if store_ok then
        (fun s => if s = symbol then some (now, serialize fetched) else st s)
      else st
    (fetched, st', 1)
  match st symbol with
  | some (mtime, blob) =>
    if now - mtime < cache_expiry_hours then
      match deserialize blob with
      | some d => (d, st, 0)
      | none => fetchAndStore
    else fetchAndStore
  | none => fetchAndStore

/-! ## Theorems about the signal decision engine -/

/-- The position of a rule in the fixed evaluation order of
`analyze_buy_strategy` (rules 1-4). -/
def ruleIndex : Reason → ℕ
  | .rsiOversold _ => 1
  | .pullbackUptrend => 2
  | .lowRangePosition _ _ => 3
  | .goldenCrossProximity => 4

/-- The concrete scenario input of claim C7. -/
def scenarioData : StockData :=
  { current_price := 150, high_52_week := 200, low_52_week := 100
    ma50 := 160, ma200 := 140, rsi := 25 }

/-- The result `analyze_buy_strategy` produces on `scenarioData`. -/
def scenarioResult : SignalResult :=
  { buy_signals := [.rsiOversold 30, .pullbackUptrend]
    signals_count := 2
    recommendation := .buyCandidate
    market_position := .mid
    price_position_percentage := 50 }

/-- The counterexample input of claim C2: a current price above the whole
52-week range (high 200 > low 100). -/
def outOfRangeData : StockData :=
  { current_price := 300, high_52_week := 200, low_52_week := 100
    ma50 := 1, ma200 := 2, rsi := 50 }

/-- The crash input for the division-by-zero case (`high = low`). -/
def flatRangeData : StockData :=
  { current_price := 2, high_52_week := 7, low_52_week := 7
    ma50 := 1, ma200 := 1, rsi := 50 }

/-- 14 strictly rising closes. -/
def risingCloses : List ℚ := [1, 2, 3, 4, 5, 6, 7, 8, 9, 10, 11, 12, 13, 14]

/-- 15 flat closes. -/
def flatCloses : List ℚ := List.replicate 15 1

/-- The synthetic series of the anomaly scenario: one day's close drops 20%
(date 2), against dates 0, 1, 3 with no move. -/
def anomalyRows : List (ℤ × ℚ) := [(0, 100), (1, 100), (2, 80), (3, 80)]

/-- The one-row time series used as the C9 witness input. -/
def peRow : Row := { date := 0, open_ := 1, high := 1, low := 1, close := 1, volume := 1 }

/-- The snapshot `get_stock_data` produces on `[peRow]` with no `PERatio`. -/
def snapNoPe : Snapshot :=
  { date := 0, current_price := 1, high_52_week := 1, low_52_week := 1
    pe_ratio := 0, price_anomaly := { detected := false, date := none, change_pct := none }
    df := [peRow] }

/-- The snapshot `get_stock_data` produces on `[peRow]` with `PERatio = 5`. -/
def snapWithPe : Snapshot :=
  { date := 0, current_price := 1, high_52_week := 1, low_52_week := 1
    pe_ratio := 5, price_anomaly := { detected := false, date := none, change_pct := none }
    df := [peRow] }

/-- C7: on current_price=150, high=200, low=100, ma50=160, ma200=140, rsi=25
with default thresholds, exactly rules 1 and 2 fire, rules 3 and 4 do not,
signal count is 2, the recommendation is BUY_CANDIDATE, the price position is
50 and the market position is the [40,60) band. -/
theorem analyze_buy_strategy_scenario :
    analyze_buy_strategy scenarioData none = some scenarioResult ∧
    price_position scenarioData = 50 ∧
    scenarioResult.buy_signals.length = 2 ∧
    (∀ t q, Reason.lowRangePosition t q ∉ scenarioResult.buy_signals) ∧
    Reason.goldenCrossProximity ∉ scenarioResult.buy_signals := by
  refine ⟨by with_unfolding_all decide, by with_unfolding_all decide, rfl, ?_, by with_unfolding_all decide⟩
  intro t q
  simp [scenarioResult]

/-- C1 (amended): whenever `analyze_buy_strategy` completes (it raises
`ZeroDivisionError` when `high_52_week == low_52_week`), the recommendation is
the function `recOfCount` of the number of fired rules alone, and the market
position is the function `bandOf` of the price position alone (five ascending
bands with strict cutoffs 20, 40, 60, 80). -/
theorem analyze_buy_strategy_rec_band (data : StockData) (p : Option StrategyParams)
    (r : SignalResult) (h : analyze_buy_strategy data p = some r) :
    r.recommendation = recOfCount r.buy_signals.length ∧
    r.signals_count = r.buy_signals.length ∧
    r.market_position = bandOf (price_position data) := by
  unfold analyze_buy_strategy at h
  split at h
  · exact absurd h (by simp)
  split at h
  · exact absurd h (by simp)
  simp only [Option.some.injEq] at h
  subst h
  exact ⟨rfl, rfl, rfl⟩

/-- C1 counterexample: an input whose 52-week high equals its 52-week low
receives no recommendation and no band at all (the engine raises
`ZeroDivisionError`), refuting "every input receives exactly one
recommendation and exactly one band". -/
theorem analyze_buy_strategy_flat_range_crash :
    analyze_buy_strategy ⟨1, 5, 5, 1, 1, 50⟩ none = none := by with_unfolding_all decide

/-- Witness for `analyze_buy_strategy_rec_band` at the concrete scenario. -/
theorem analyze_buy_strategy_rec_band_witness :
    analyze_buy_strategy scenarioData none = some scenarioResult ∧
    (scenarioResult.recommendation = recOfCount scenarioResult.buy_signals.length ∧
      scenarioResult.signals_count = scenarioResult.buy_signals.length ∧
      scenarioResult.market_position = bandOf (price_position scenarioData)) :=
  ⟨by with_unfolding_all decide, analyze_buy_strategy_rec_band scenarioData none scenarioResult (by with_unfolding_all decide)⟩

/-- C10: every result of `analyze_buy_strategy` has `signals_count` equal to
the length of `buy_signals`, at most 4 entries, and the entries strictly
ascending in the fixed rule order 1, 2, 3, 4. -/
theorem buy_signals_count_and_order (data : StockData) (p : Option StrategyParams)
    (r : SignalResult) (h : analyze_buy_strategy data p = some r) :
    r.signals_count = r.buy_signals.length ∧
    r.buy_signals.length ≤ 4 ∧
    r.buy_signals.Pairwise (fun a b => ruleIndex a < ruleIndex b) := by
  unfold analyze_buy_strategy at h
  split at h
  · exact absurd h (by simp)
  split at h
  · exact absurd h (by simp)
  simp only [Option.some.injEq] at h
  subst h
  refine ⟨rfl, ?_, ?_⟩ <;>
    · simp only []
      split_ifs <;> simp [ruleIndex]

/-- Witness for `buy_signals_count_and_order` at the concrete scenario. -/
theorem buy_signals_count_and_order_witness :
    analyze_buy_strategy scenarioData none = some scenarioResult ∧
    (scenarioResult.signals_count = scenarioResult.buy_signals.length ∧
      scenarioResult.buy_signals.length ≤ 4 ∧
      scenarioResult.buy_signals.Pairwise (fun a b => ruleIndex a < ruleIndex b)) :=
  ⟨by with_unfolding_all decide, buy_signals_count_and_order scenarioData none scenarioResult (by with_unfolding_all decide)⟩

/-- C2 (amended): the engine's reported price position is the rounded value of
`(current_price - low) / (high - low) * 100`; when `low < high` it is exactly
0 at `current_price = low`, exactly 100 at `current_price = high`, and lies in
[0,100] whenever `low ≤ current_price ≤ high`; when `high = low` the
computation is an unguarded division by zero (the engine raises instead of
returning). -/
theorem price_position_spec (data : StockData) (p : Option StrategyParams) :
    (∀ r, analyze_buy_strategy data p = some r →
        r.price_position_percentage = round2 (price_position data)) ∧
    (data.low_52_week < data.high_52_week →
      (data.current_price = data.low_52_week → price_position data = 0) ∧
      (data.current_price = data.high_52_week → price_position data = 100) ∧
      (data.low_52_week ≤ data.current_price → data.current_price ≤ data.high_52_week →
        0 ≤ price_position data ∧ price_position data ≤ 100)) ∧
    (data.high_52_week = data.low_52_week → analyze_buy_strategy data p = none) := by
  refine ⟨?_, ?_, ?_⟩
  · intro r h
    unfold analyze_buy_strategy at h
    split at h
    · exact absurd h (by simp)
    split at h
    · exact absurd h (by simp)
    simp only [Option.some.injEq] at h
    subst h
    rfl
  · intro hlt
    have hpos : 0 < data.high_52_week - data.low_52_week := sub_pos.mpr hlt
    have hne : data.high_52_week - data.low_52_week ≠ 0 := ne_of_gt hpos
    refine ⟨?_, ?_, ?_⟩
    · intro hc
      unfold price_position
      rw [hc, sub_self, zero_div, zero_mul]
    · intro hc
      unfold price_position
      rw [hc, div_self hne, one_mul]
    · intro h1 h2
      unfold price_position
      constructor
      · have : 0 ≤ (data.current_price - data.low_52_week) /
            (data.high_52_week - data.low_52_week) :=
          div_nonneg (sub_nonneg.mpr h1) (le_of_lt hpos)
        linarith
      · have : (data.current_price - data.low_52_week) /
            (data.high_52_week - data.low_52_week) ≤ 1 := by
          rw [div_le_one hpos]
          linarith
        linarith
  · intro h
    unfold analyze_buy_strategy
    simp [h]

/-- C2 counterexample: for `outOfRangeData`, whose `high_52_week` strictly
exceeds its `low_52_week`, the engine completes and computes a price position
of 200, outside [0,100]: the claim's unconditional "[0,100] for every input
with high_52w > low_52w" is false. -/
theorem price_position_out_of_range :
    outOfRangeData.low_52_week < outOfRangeData.high_52_week ∧
    price_position outOfRangeData = 200 ∧
    ¬ price_position outOfRangeData ≤ 100 ∧
    analyze_buy_strategy outOfRangeData none =
      some { buy_signals := [], signals_count := 0, recommendation := .avoid
             market_position := .nearHigh, price_position_percentage := 200 } := by
  with_unfolding_all decide

/-- Witness for `price_position_spec` at concrete inputs: the scenario input
(low 100 < high 200, current price 150 inside the range) and the flat-range
input. -/
theorem price_position_spec_witness :
    (scenarioResult.price_position_percentage = round2 (price_position scenarioData) ∧
      (0 ≤ price_position scenarioData ∧ price_position scenarioData ≤ 100)) ∧
    analyze_buy_strategy flatRangeData none = none := by
  refine ⟨⟨?_, ?_⟩, ?_⟩
  · exact (price_position_spec scenarioData none).1 scenarioResult
      (by with_unfolding_all decide)
  · exact ((price_position_spec scenarioData none).2.1
        (by with_unfolding_all decide)).2.2
      (by with_unfolding_all decide) (by with_unfolding_all decide)
  · exact (price_position_spec flatRangeData none).2.2 (by with_unfolding_all decide)

/-! ## Theorems about the fetcher -/

/-- C4 (amended): with the default `max_retries = 3`, a rate-limited attempt
number `k` (0-based) sleeps `retry_delay * (k+1)` and retries; any other
exception sleeps a fixed `retry_delay` and retries, and on the final attempt
propagates; exhausting all three attempts on rate-limit responses falls out of
the loop and performs a normal `return None` — no payload, but also no
exception. -/
theorem get_api_data_retry_spec (attempts : ℕ → ApiOutcome) (rd : ℚ) :
    (∀ d, (∀ k, k < 3 → attempts k = .payload true d) →
        get_api_data attempts 3 rd = (.returns none, [rd * 1, rd * 2, rd * 3])) ∧
    (∀ d d', attempts 0 = .payload true d → attempts 1 = .payload false d' →
        get_api_data attempts 3 rd = (.returns (some d'), [rd * 1])) ∧
    (attempts 0 = .exn → attempts 1 = .exn → attempts 2 = .exn →
        get_api_data attempts 3 rd = (.raises, [rd, rd])) ∧
    (∀ d, attempts 0 = .exn → attempts 1 = .payload false d →
        get_api_data attempts 3 rd = (.returns (some d), [rd])) := by
  refine ⟨?_, ?_, ?_, ?_⟩
  · intro d h
    have h0 := h 0 (by norm_num)
    have h1 := h 1 (by norm_num)
    have h2 := h 2 (by norm_num)
    norm_num [get_api_data, get_api_data_loop, h0, h1, h2]
  · intro d d' h0 h1
    norm_num [get_api_data, get_api_data_loop, h0, h1]
  · intro h0 h1 h2
    norm_num [get_api_data, get_api_data_loop, h0, h1, h2]
  · intro d h0 h1
    norm_num [get_api_data, get_api_data_loop, h0, h1]

/-- C4 counterexample: three straight rate-limited payloads exhaust the retry
budget, and `get_api_data` performs a normal return of `None` (after sleeping
10, 20, 30) instead of escalating to an error: the claimed
`FetchError` escalation ("not a normal return") does not happen. -/
theorem get_api_data_rate_limit_exhaustion :
    get_api_data (fun _ => .payload true 7) 3 10 = (.returns none, [10, 20, 30]) ∧
    FetchResult.returns none ≠ FetchResult.raises := by
  constructor
  · with_unfolding_all decide
  · simp

/-- Witness for `get_api_data_retry_spec`: an exception on attempt 0 followed
by a clean payload on attempt 1 sleeps the fixed delay once and returns the
payload. -/
theorem get_api_data_retry_spec_witness :
    get_api_data (fun k => if k = 0 then .exn else .payload false 5) 3 10 =
      (.returns (some 5), [10]) :=
  (get_api_data_retry_spec (fun k => if k = 0 then .exn else .payload false 5) 10).2.2.2
    5 (by norm_num) (by norm_num)

/-! ## Theorems about the cache -/

/-- C5: a fresh cache entry that deserializes is returned with no upstream
request; a deserialization failure of a fresh entry falls through to a live
fetch; on a miss the fetched result is returned and (when the write succeeds)
stored keyed by the symbol; a store failure leaves the state unchanged but
still returns the fresh result; and a second call within the TTL after a
successful store performs zero upstream requests and returns the first call's
data, so the two calls issue exactly one request in total. -/
theorem get_stock_data_with_cache_spec
    (deser : ℕ → Option ℕ) (ser : ℕ → ℕ) (fetched : ℕ) (store_ok : Bool)
    (now ttl : ℚ) (sym : ℕ) (st : ℕ → Option (ℚ × ℕ)) :
    (∀ t b d, st sym = some (t, b) → now - t < ttl → deser b = some d →
        get_stock_data_with_cache deser ser fetched store_ok now ttl sym st =
          (d, st, 0)) ∧
    (∀ t b, st sym = some (t, b) → now - t < ttl → deser b = none →
        (get_stock_data_with_cache deser ser fetched store_ok now ttl sym st).1 =
          fetched ∧
        (get_stock_data_with_cache deser ser fetched store_ok now ttl sym st).2.2 = 1) ∧
    (st sym = none →
        (get_stock_data_with_cache deser ser fetched store_ok now ttl sym st).1 =
          fetched ∧
        (get_stock_data_with_cache deser ser fetched store_ok now ttl sym st).2.2 = 1 ∧
        (store_ok = true →
          (get_stock_data_with_cache deser ser fetched store_ok now ttl sym st).2.1 sym =
            some (now, ser fetched)) ∧
        (store_ok = false →
          (get_stock_data_with_cache deser ser fetched store_ok now ttl sym st).2.1 =
            st)) ∧
    (∀ now2 fetched2 store_ok2, st sym = none → store_ok = true →
        deser (ser fetched) = some fetched → now2 - now < ttl →
        (get_stock_data_with_cache deser ser fetched store_ok now ttl sym st).2.2 = 1 ∧
        get_stock_data_with_cache deser ser fetched2 store_ok2 now2 ttl sym
            (get_stock_data_with_cache deser ser fetched store_ok now ttl sym st).2.1 =
          (fetched,
            (get_stock_data_with_cache deser ser fetched store_ok now ttl sym st).2.1,
            0)) := by
  refine ⟨?_, ?_, ?_, ?_⟩
  · intro t b d hst hfresh hde
    simp [get_stock_data_with_cache, hst, hfresh, hde]
  · intro t b hst hfresh hde
    simp [get_stock_data_with_cache, hst, hfresh, hde]
  · intro hst
    refine ⟨?_, ?_, ?_, ?_⟩ <;>
      simp [get_stock_data_with_cache, hst] <;> intro h <;> simp [h]
  · intro now2 fetched2 store_ok2 hst hok hrt hfresh
    constructor
    · simp [get_stock_data_with_cache, hst]
    · simp [get_stock_data_with_cache, hst, hok, hrt, hfresh]

/-- Witness for `get_stock_data_with_cache_spec`: starting from the empty
cache with the identity pickle, a fetch of 42 at time 0 followed by a second
call at time 1 (TTL 4) serves 42 from the cache with one request in total. -/
theorem get_stock_data_with_cache_spec_witness :
    (get_stock_data_with_cache some id 42 true 0 4 9
        (fun _ => none)).2.2 = 1 ∧
    get_stock_data_with_cache some id 99 true 1 4 9
        (get_stock_data_with_cache some id 42 true 0 4 9 (fun _ => none)).2.1 =
      (42, (get_stock_data_with_cache some id 42 true 0 4 9 (fun _ => none)).2.1, 0) :=
  (get_stock_data_with_cache_spec some id 42 true 0 4 9 (fun _ => none)).2.2.2
    1 99 true rfl rfl rfl (by norm_num)

/-! ## Theorems about the indicator engine -/

lemma rollingMean_length (w : ℕ) (xs : List ℚ) :
    (rollingMean w xs).length = xs.length := by
  simp [rollingMean]

lemma rollingMean_getElem? (w : ℕ) (xs : List ℚ) (i : ℕ) (h : i < xs.length) :
    (rollingMean w xs)[i]? =
      some (if w ≤ i + 1 then some ((windowSlice w i xs).sum / w) else none) := by
  simp [rollingMean, List.getElem?_map, List.getElem?_range, h]

lemma rollingMean_getElem?_none (w : ℕ) (xs : List ℚ) (i : ℕ) (h : xs.length ≤ i) :
    (rollingMean w xs)[i]? = none := by
  rw [List.getElem?_eq_none]
  rw [rollingMean_length]
  exact h

lemma windowSlice_sublist_mem (w i : ℕ) (xs : List ℚ) (x : ℚ)
    (hx : x ∈ windowSlice w i xs) : x ∈ xs := by
  unfold windowSlice at hx
  exact List.take_subset _ _ (List.drop_subset _ _ hx)

lemma rollingMean_nonneg (w : ℕ) (xs : List ℚ) (hxs : ∀ x ∈ xs, 0 ≤ x)
    (i : ℕ) (v : ℚ) (h : (rollingMean w xs)[i]? = some (some v)) : 0 ≤ v := by
  by_cases hi : i < xs.length
  · rw [rollingMean_getElem? w xs i hi] at h
    split at h
    · simp only [Option.some.injEq] at h
      subst h
      apply div_nonneg
      · exact List.sum_nonneg fun x hx => hxs x (windowSlice_sublist_mem w i xs x hx)
      · positivity
    · simp at h
  · rw [rollingMean_getElem?_none w xs i (le_of_not_lt hi)] at h
    simp at h

lemma windowSlice_eq_drop_take (w i : ℕ) (xs : List ℚ) (hw : w ≤ i + 1) :
    windowSlice w i xs = (xs.drop (i + 1 - w)).take w := by
  unfold windowSlice
  rw [List.drop_take (i + 1) (i + 1 - w) xs]
  congr 1
  omega

/-- C8: for every series with at least 200 points, the `ma200` column is, at
each index from 199 on, the arithmetic mean of the trailing 200 closes (a
window of length exactly 200), and is NaN at each earlier index; `ma50`
satisfies the same with window 50 from index 49 on. -/
theorem calculate_moving_averages_spec (closes : List ℚ) (_h200 : 200 ≤ closes.length)
    (i : ℕ) (hi : i < closes.length) :
    (199 ≤ i →
      (calculate_moving_averages closes).ma200[i]? =
        some (some (((closes.drop (i + 1 - 200)).take 200).sum / 200)) ∧
      ((closes.drop (i + 1 - 200)).take 200).length = 200) ∧
    (i < 199 → (calculate_moving_averages closes).ma200[i]? = some none) ∧
    (49 ≤ i →
      (calculate_moving_averages closes).ma50[i]? =
        some (some (((closes.drop (i + 1 - 50)).take 50).sum / 50)) ∧
      ((closes.drop (i + 1 - 50)).take 50).length = 50) ∧
    (i < 49 → (calculate_moving_averages closes).ma50[i]? = some none) := by
  have htake : ∀ w : ℕ, w ≤ i + 1 → ((closes.drop (i + 1 - w)).take w).length = w := by
    intro w hw
    rw [List.length_take, List.length_drop]
    omega
  refine ⟨fun h199 => ?_, fun h199 => ?_, fun h49 => ?_, fun h49 => ?_⟩
  · have hw : 200 ≤ i + 1 := by omega
    refine ⟨?_, htake 200 hw⟩
    show (rollingMean 200 closes)[i]? = _
    rw [rollingMean_getElem? 200 closes i hi, if_pos hw,
      windowSlice_eq_drop_take 200 i closes hw]
    norm_num
  · show (rollingMean 200 closes)[i]? = _
    rw [rollingMean_getElem? 200 closes i hi, if_neg (by omega)]
  · have hw : 50 ≤ i + 1 := by omega
    refine ⟨?_, htake 50 hw⟩
    show (rollingMean 50 closes)[i]? = _
    rw [rollingMean_getElem? 50 closes i hi, if_pos hw,
      windowSlice_eq_drop_take 50 i closes hw]
    norm_num
  · show (rollingMean 50 closes)[i]? = _
    rw [rollingMean_getElem? 50 closes i hi, if_neg (by omega)]

/-- Witness for `calculate_moving_averages_spec` on 200 constant closes at
index 199. -/
theorem calculate_moving_averages_spec_witness :
    (calculate_moving_averages (List.replicate 200 (1 : ℚ))).ma200[199]? =
      some (some ((((List.replicate 200 (1 : ℚ)).drop (199 + 1 - 200)).take 200).sum /
        200)) ∧
    (((List.replicate 200 (1 : ℚ)).drop (199 + 1 - 200)).take 200).length = 200 :=
  (calculate_moving_averages_spec (List.replicate 200 1)
      (by rw [List.length_replicate]) 199 (by rw [List.length_replicate]; norm_num)).1
    (by norm_num)

lemma diff_length (xs : List ℚ) : (diff xs).length = xs.length := by
  simp [diff]

lemma gain_list_nonneg (closes : List ℚ) :
    ∀ x ∈ (diff closes).map gainOf, 0 ≤ x := by
  intro x hx
  rw [List.mem_map] at hx
  obtain ⟨d, -, rfl⟩ := hx
  rcases d with - | v
  · norm_num [gainOf]
  · simp only [gainOf]
    split
    · linarith
    · exact le_rfl

lemma loss_list_nonneg (closes : List ℚ) :
    ∀ x ∈ (diff closes).map lossOf, 0 ≤ x := by
  intro x hx
  rw [List.mem_map] at hx
  obtain ⟨d, -, rfl⟩ := hx
  rcases d with - | v
  · norm_num [lossOf]
  · simp only [lossOf]
    split
    · linarith
    · exact le_rfl

lemma rsi_avg_gain_length (closes : List ℚ) :
    (rsi_avg_gain 14 closes).length = closes.length := by
  rw [rsi_avg_gain, rollingMean_length, List.length_map, diff_length]

lemma rsi_avg_loss_length (closes : List ℚ) :
    (rsi_avg_loss 14 closes).length = closes.length := by
  rw [rsi_avg_loss, rollingMean_length, List.length_map, diff_length]

lemma calculate_rsi_getElem? (closes : List ℚ) (i : ℕ) (g l : ℚ)
    (hg : (rsi_avg_gain 14 closes)[i]? = some (some g))
    (hl : (rsi_avg_loss 14 closes)[i]? = some (some l)) :
    (calculate_rsi 14 closes)[i]? =
      some (if l = 0 then (if g = 0 then none else some 100)
            else some (100 - 100 / (1 + g / l))) := by
  unfold calculate_rsi
  simp [List.getElem?_zipWith, hg, hl]

lemma rsi_avg_gain_full (closes : List ℚ) (i : ℕ) (h13 : 13 ≤ i)
    (hi : i < closes.length) :
    (rsi_avg_gain 14 closes)[i]? =
      some (some ((windowSlice 14 i ((diff closes).map gainOf)).sum / 14)) := by
  rw [rsi_avg_gain, rollingMean_getElem? 14 _ i
    (by rw [List.length_map, diff_length]; exact hi), if_pos (by omega)]
  norm_num

lemma rsi_avg_loss_full (closes : List ℚ) (i : ℕ) (h13 : 13 ≤ i)
    (hi : i < closes.length) :
    (rsi_avg_loss 14 closes)[i]? =
      some (some ((windowSlice 14 i ((diff closes).map lossOf)).sum / 14)) := by
  rw [rsi_avg_loss, rollingMean_getElem? 14 _ i
    (by rw [List.length_map, diff_length]; exact hi), if_pos (by omega)]
  norm_num

/-- C3 (amended): RSI(14) is NaN for the first 13 points; every defined RSI
value lies in [0,100]; wherever the 14-period average loss is 0 but the
average gain is not, RSI is exactly 100; and from index 13 on, RSI is NaN
precisely when average gain and average loss are both 0 (a flat window, where
`0/0` is NaN), so it is defined everywhere else. -/
theorem calculate_rsi_spec (closes : List ℚ) :
    (∀ i, i < 13 → i < closes.length → (calculate_rsi 14 closes)[i]? = some none) ∧
    (∀ (i : ℕ) (x : ℚ), (calculate_rsi 14 closes)[i]? = some (some x) →
        0 ≤ x ∧ x ≤ 100) ∧
    (∀ (i : ℕ) (g : ℚ), (rsi_avg_gain 14 closes)[i]? = some (some g) →
        (rsi_avg_loss 14 closes)[i]? = some (some 0) → g ≠ 0 →
        (calculate_rsi 14 closes)[i]? = some (some (100 : ℚ))) ∧
    (∀ i, 13 ≤ i → i < closes.length →
        ((calculate_rsi 14 closes)[i]? = some none ↔
          (rsi_avg_gain 14 closes)[i]? = some (some 0) ∧
          (rsi_avg_loss 14 closes)[i]? = some (some 0))) := by
  refine ⟨?_, ?_, ?_, ?_⟩
  · intro i h13 hi
    have hg : (rsi_avg_gain 14 closes)[i]? = some none := by
      rw [rsi_avg_gain, rollingMean_getElem? 14 _ i
        (by rw [List.length_map, diff_length]; exact hi), if_neg (by omega)]
    have hl : (rsi_avg_loss 14 closes)[i]? = some none := by
      rw [rsi_avg_loss, rollingMean_getElem? 14 _ i
        (by rw [List.length_map, diff_length]; exact hi), if_neg (by omega)]
    unfold calculate_rsi
    simp [List.getElem?_zipWith, hg, hl]
  · intro i x h
    by_cases hi : i < closes.length
    · by_cases h13 : 13 ≤ i
      · have hg := rsi_avg_gain_full closes i h13 hi
        have hl := rsi_avg_loss_full closes i h13 hi
        set g := (windowSlice 14 i ((diff closes).map gainOf)).sum / 14 with hgdef
        set l := (windowSlice 14 i ((diff closes).map lossOf)).sum / 14 with hldef
        have hg0 : 0 ≤ g :=
          rollingMean_nonneg 14 _ (gain_list_nonneg closes) i g hg
        have hl0 : 0 ≤ l :=
          rollingMean_nonneg 14 _ (loss_list_nonneg closes) i l hl
        rw [calculate_rsi_getElem? closes i g l hg hl] at h
        split_ifs at h with h1 h2
        · simp at h
        · simp only [Option.some.injEq] at h
          subst h
          norm_num
        · simp only [Option.some.injEq] at h
          subst h
          have hlpos : 0 < l := lt_of_le_of_ne hl0 (Ne.symm h1)
          have hgl : 0 ≤ g / l := div_nonneg hg0 hl0
          have hb : (1 : ℚ) ≤ 1 + g / l := by linarith
          have hpos : 0 < 100 / (1 + g / l) := by positivity
          have hle : 100 / (1 + g / l) ≤ 100 := div_le_self (by norm_num) hb
          constructor <;> linarith
      · have hg : (rsi_avg_gain 14 closes)[i]? = some none := by
          rw [rsi_avg_gain, rollingMean_getElem? 14 _ i
            (by rw [List.length_map, diff_length]; exact hi), if_neg (by omega)]
        have hl : (rsi_avg_loss 14 closes)[i]? = some none := by
          rw [rsi_avg_loss, rollingMean_getElem? 14 _ i
            (by rw [List.length_map, diff_length]; exact hi), if_neg (by omega)]
        unfold calculate_rsi at h
        simp [List.getElem?_zipWith, hg, hl] at h
    · have hlen : (calculate_rsi 14 closes).length ≤ i := by
        unfold calculate_rsi
        rw [List.length_zipWith, rsi_avg_gain_length, rsi_avg_loss_length]
        omega
      rw [List.getElem?_eq_none hlen] at h
      simp at h
  · intro i g hg hl hgne
    rw [calculate_rsi_getElem? closes i g 0 hg hl, if_pos rfl, if_neg hgne]
  · intro i h13 hi
    have hg := rsi_avg_gain_full closes i h13 hi
    have hl := rsi_avg_loss_full closes i h13 hi
    set g := (windowSlice 14 i ((diff closes).map gainOf)).sum / 14 with hgdef
    set l := (windowSlice 14 i ((diff closes).map lossOf)).sum / 14 with hldef
    rw [calculate_rsi_getElem? closes i g l hg hl, hg, hl]
    constructor
    · intro h
      split_ifs at h with h1 h2
      · exact ⟨by rw [h2], by rw [h1]⟩
      · simp at h
      · simp at h
    · rintro ⟨hg0, hl0⟩
      simp only [Option.some.injEq] at hg0 hl0
      rw [if_pos hl0, if_pos hg0]

/-- C3 counterexample: on 14 strictly rising closes, RSI is already defined
(exactly 100) at index 13, i.e. within "the first 14 points", refuting
"undefined for the first 14 points"; and on 15 flat closes the average loss
at index 14 is 0 yet RSI there is NaN, not 100, refuting "avg_loss == 0
implies RSI == 100". -/
theorem calculate_rsi_counterexample :
    (13 : ℕ) < 14 ∧
    (calculate_rsi 14 risingCloses)[13]? = some (some (100 : ℚ)) ∧
    (rsi_avg_loss 14 flatCloses)[14]? = some (some (0 : ℚ)) ∧
    (calculate_rsi 14 flatCloses)[14]? = some none := by
  refine ⟨by norm_num, ?_, ?_, ?_⟩ <;> with_unfolding_all decide

/-- Witness for `calculate_rsi_spec`: on the rising series, RSI is NaN at
index 0 and exactly 100 at index 13. -/
theorem calculate_rsi_spec_witness :
    (calculate_rsi 14 risingCloses)[0]? = some none ∧
    (calculate_rsi 14 risingCloses)[13]? = some (some (100 : ℚ)) :=
  ⟨(calculate_rsi_spec risingCloses).1 0 (by norm_num) (by with_unfolding_all decide),
   (calculate_rsi_spec risingCloses).2.2.1 13 (13/14)
     (by with_unfolding_all decide) (by with_unfolding_all decide) (by norm_num)⟩

/-! ## Theorems about anomaly detection -/

lemma firstMaxAbs_eq_none (l : List (ℤ × ℚ)) : firstMaxAbs l = none ↔ l = [] := by
  cases l with
  | nil => simp [firstMaxAbs]
  | cons p ps =>
    simp only [firstMaxAbs]
    cases h : firstMaxAbs ps <;> simp [h]
    split <;> simp

lemma firstMaxAbs_filter_spec (t : ℚ) (l : List (ℤ × ℚ)) (m : ℤ × ℚ)
    (h : firstMaxAbs (l.filter fun p => t < |p.2|) = some m) :
    ∃ l1 l2, l = l1 ++ m :: l2 ∧ (∀ x ∈ l1, |x.2| < |m.2|) ∧
      (∀ x ∈ l, |x.2| ≤ |m.2|) ∧ t < |m.2| := by
  induction l generalizing m with
  | nil => simp [firstMaxAbs] at h
  | cons a l ih =>
    by_cases ha : t < |a.2|
    · rw [List.filter_cons_of_pos (by simpa using ha)] at h
      cases hrec : firstMaxAbs (l.filter fun p => t < |p.2|) with
      | none =>
        simp only [firstMaxAbs, hrec, Option.some.injEq] at h
        subst h
        have hnil := (firstMaxAbs_eq_none _).mp hrec
        rw [List.filter_eq_nil_iff] at hnil
        refine ⟨[], l, rfl, by simp, ?_, ha⟩
        intro x hx
        rcases List.mem_cons.mp hx with hx | hx
        · rw [hx]
        · have : ¬ t < |x.2| := by simpa using hnil x hx
          push_neg at this
          linarith
      | some q =>
        simp only [firstMaxAbs, hrec] at h
        obtain ⟨l1, l2, hl, hlt, hle, hq⟩ := ih q hrec
        by_cases hcmp : |a.2| < |q.2|
        · rw [if_pos hcmp] at h
          simp only [Option.some.injEq] at h
          subst h
          refine ⟨a :: l1, l2, by simp [hl], ?_, ?_, hq⟩
          · intro x hx
            rcases List.mem_cons.mp hx with hx | hx
            · rw [hx]; exact hcmp
            · exact hlt x hx
          · intro x hx
            rcases List.mem_cons.mp hx with hx | hx
            · rw [hx]; exact le_of_lt hcmp
            · exact hle x hx
        · rw [if_neg hcmp] at h
          simp only [Option.some.injEq] at h
          subst h
          push_neg at hcmp
          refine ⟨[], l, rfl, by simp, ?_, ha⟩
          intro x hx
          rcases List.mem_cons.mp hx with hx | hx
          · rw [hx]
          · exact le_trans (hle x hx) hcmp
    · rw [List.filter_cons_of_neg (by simpa using ha)] at h
      obtain ⟨l1, l2, hl, hlt, hle, hm⟩ := ih m h
      push_neg at ha
      refine ⟨a :: l1, l2, by simp [hl], ?_, ?_, hm⟩
      · intro x hx
        rcases List.mem_cons.mp hx with hx | hx
        · rw [hx]; exact lt_of_le_of_lt ha hm
        · exact hlt x hx
      · intro x hx
        rcases List.mem_cons.mp hx with hx | hx
        · rw [hx]; exact le_of_lt (lt_of_le_of_lt ha hm)
        · exact hle x hx

/-- C6: on a date-sorted series with nonzero closes, anomaly detection fires
iff some day-over-day percentage change exceeds the threshold in absolute
value; when it fires it reports the date and the (rounded) signed value of the
earliest maximal-absolute change, which dominates every daily change; when it
does not fire, date and change are absent. -/
theorem detect_price_anomalies_spec (threshold : ℚ) (rows : List (ℤ × ℚ))
    (hsort : rows.Pairwise (fun a b => a.1 < b.1)) :
    ((detect_price_anomalies threshold rows).detected = true ↔
      ∃ p ∈ pct_changes rows, threshold * 100 < |p.2|) ∧
    ((detect_price_anomalies threshold rows).detected = true →
      ∃ m l1 l2, pct_changes rows = l1 ++ m :: l2 ∧
        (detect_price_anomalies threshold rows).date = some m.1 ∧
        (detect_price_anomalies threshold rows).change_pct = some (round2 m.2) ∧
        threshold * 100 < |m.2| ∧
        (∀ x ∈ pct_changes rows, |x.2| ≤ |m.2|) ∧
        (∀ x ∈ l1, |x.2| < |m.2|)) ∧
    ((detect_price_anomalies threshold rows).detected = false →
      (detect_price_anomalies threshold rows).date = none ∧
      (detect_price_anomalies threshold rows).change_pct = none) := by
  have hs : rows.insertionSort (fun a b => a.1 ≤ b.1) = rows :=
    List.Sorted.insertionSort_eq (hsort.imp fun hab => le_of_lt hab)
  unfold detect_price_anomalies
  rw [hs]
  cases h : firstMaxAbs ((pct_changes rows).filter fun p => threshold * 100 < |p.2|) with
  | none =>
    have hnil := (firstMaxAbs_eq_none _).mp h
    rw [List.filter_eq_nil_iff] at hnil
    simp only [h]
    refine ⟨?_, by simp, by simp⟩
    constructor
    · simp
    · rintro ⟨p, hp, hpt⟩
      exact absurd (by simpa using hnil p hp) (by simpa using hpt)
  | some m =>
    obtain ⟨l1, l2, hl, hlt, hle, hm⟩ :=
      firstMaxAbs_filter_spec (threshold * 100) (pct_changes rows) m h
    simp only [h]
    refine ⟨?_, ?_, by simp⟩
    · constructor
      · intro
        refine ⟨m, ?_, hm⟩
        rw [hl]
        exact List.mem_append_right _ (List.mem_cons_self _ _)
      · intro
        trivial
    · intro
      exact ⟨m, l1, l2, hl, rfl, rfl, hm, hle, hlt⟩

/-- Witness for `detect_price_anomalies_spec`: the synthetic 20%-drop series
against the default 15% threshold reports detected, date 2 and change -20. -/
theorem detect_price_anomalies_spec_witness :
    (detect_price_anomalies (15/100) anomalyRows).detected = true ∧
    (detect_price_anomalies (15/100) anomalyRows).date = some 2 ∧
    (detect_price_anomalies (15/100) anomalyRows).change_pct = some (-20) := by
  refine ⟨?_, by with_unfolding_all decide, by with_unfolding_all decide⟩
  exact (detect_price_anomalies_spec (15/100) anomalyRows (by decide)).1.mpr
    ⟨(2, -20), by with_unfolding_all decide, by norm_num⟩

/-! ## Theorems about `get_stock_data` -/

/-- C9: with a nonempty time series, omitting the `PERatio` overview field
does not make `get_stock_data` fail: it yields a snapshot whose `pe_ratio` is
exactly 0 (the default 0, float-converted and rounded), with every other
field identical to what any present `PERatio` value `x` would give. -/
theorem get_stock_data_missing_pe (rows : List Row) (x : ℚ) (hne : rows ≠ []) :
    (get_stock_data rows none).isSome ∧
    ∀ s s', get_stock_data rows none = some s → get_stock_data rows (some x) = some s' →
      s.pe_ratio = 0 ∧ s.date = s'.date ∧ s.current_price = s'.current_price ∧
      s.high_52_week = s'.high_52_week ∧ s.low_52_week = s'.low_52_week ∧
      s.price_anomaly = s'.price_anomaly ∧ s.df = s'.df := by
  have hsne : rows.insertionSort (fun a b => a.date ≤ b.date) ≠ [] := by
    intro hnil
    apply hne
    have hlen := (List.perm_insertionSort (fun a b => a.date ≤ b.date) rows).length_eq
    rw [hnil] at hlen
    exact List.length_eq_zero.mp hlen.symm
  obtain ⟨latest, hlast⟩ :=
    Option.isSome_iff_exists.mp (List.getLast?_isSome.mpr hsne)
  constructor
  · unfold get_stock_data
    simp [hlast]
  · intro s s' hs hs'
    unfold get_stock_data at hs hs'
    simp only [hlast, Option.some.injEq] at hs hs'
    subst hs
    subst hs'
    refine ⟨?_, rfl, rfl, rfl, rfl, rfl, rfl⟩
    show round2 0 = 0
    with_unfolding_all decide

/-- Witness for `get_stock_data_missing_pe` on a one-row series. -/
theorem get_stock_data_missing_pe_witness :
    (get_stock_data [peRow] none).isSome ∧
    (snapNoPe.pe_ratio = 0 ∧ snapNoPe.date = snapWithPe.date ∧
      snapNoPe.current_price = snapWithPe.current_price ∧
      snapNoPe.high_52_week = snapWithPe.high_52_week ∧
      snapNoPe.low_52_week = snapWithPe.low_52_week ∧
      snapNoPe.price_anomaly = snapWithPe.price_anomaly ∧
      snapNoPe.df = snapWithPe.df) :=
  ⟨(get_stock_data_missing_pe [peRow] 5 (by simp)).1,
   (get_stock_data_missing_pe [peRow] 5 (by simp)).2 snapNoPe snapWithPe
     (by with_unfolding_all decide) (by with_unfolding_all decide)⟩

end StockAnalysis
